import Mathlib

/-!
Verification of the classification-join / abundance / deduplication pipeline
of `ngspeciesid.py`.

The script's core is:
 * an awk program that loads `taxonomy.tsv` into a lookup array `tax`
   (keyed by the first tab-separated field of each line) and joins vsearch
   hits against it, emitting one classified row per hit;
 * a pandas stage that computes per-species abundance fractions
   (`value_counts(normalize=True)` over the whitespace-normalized species
   column) and merges them back onto the rows;
 * a deduplication stage (`drop_duplicates(subset=["species"])`) keeping the
   first row per exact species value.

Lines of text are embedded as lists of tab-separated fields
(`List String`); a dataframe cell that pandas would read as NaN is `none`.
Fractions are embedded as `Rat`.
-/

namespace NGSpeciesId

/-! ### awk stage: taxonomy lookup table

The awk BEGIN block reads `taxonomy.tsv` with `getline < "taxonomy.tsv"`,
which sets `$0` and `NF` but leaves `NR` unchanged, so `NR` keeps the value
it has on entry to `BEGIN`, namely 0.  The guard `if (NR==1)` that intends
to skip the header line is therefore compared against that frozen value on
every iteration.  We model the loop with the frozen `nr` passed explicitly.
-/

/-- One step of `tax[$1] = $0`: bind the first field of `row` to the whole
row, overwriting any earlier binding for the same key. -/
def taxInsert (t : String → Option (List String)) (row : List String) :
    String → Option (List String) :=
  fun k => if k = row.headD "" then some row else t k

/-- The `while ((getline < "taxonomy.tsv") > 0)` loop of the awk BEGIN
block.  `nr` is awk's `NR`, which `getline < file` does not advance. -/
def taxLoop (nr : Nat) : List (List String) →
    (String → Option (List String)) → (String → Option (List String))
  | [], t => t
  | row :: rest, t =>
      if nr = 1 then taxLoop nr rest t
      else taxLoop nr rest (taxInsert t row)

/-- The lookup array `tax` after the BEGIN block, starting from the empty
array with `NR = 0`. -/
def tax (taxLines : List (List String)) : String → Option (List String) :=
  taxLoop 0 taxLines (fun _ => none)

/-- The header exposed by step (4) of the bash pipeline:
`head -n1 taxonomy.tsv`, i.e. the first line of the taxonomy table. -/
def taxHeader (taxLines : List (List String)) : List String :=
  taxLines.headD []

/-! ### awk stage: joining hits -/

/-- One vsearch hit: `query+target+id` fields of a line of `hits.txt`. -/
structure Hit where
  queryId : String
  targetId : String
  identity : String
deriving DecidableEq, Repr

/-- `split($2, parts, ":"); tid = parts[1]`: the part of the target id
before the first `:` (the whole string when there is no `:`). -/
def tid (targetId : String) : String :=
  String.mk (targetId.data.takeWhile (fun c => c ≠ ':'))

/-- The awk main rule for one hit: `print $1, identity, tax[tid]` when the
taxon id is known, `print $1, identity, tid, "UNKNOWN"` otherwise.  The
printed line is modelled as its list of tab-separated fields. -/
def classifyHit (t : String → Option (List String)) (h : Hit) : List String :=
  match t (tid h.targetId) with
  | some row => [h.queryId, h.identity] ++ row
  | none => [h.queryId, h.identity, tid h.targetId, "UNKNOWN"]

/-- The body of `classified_full_tmp.tsv`: one classified row per hit, in
input order. -/
def classified_full (t : String → Option (List String)) (hits : List Hit) :
    List (List String) :=
  hits.map (classifyHit t)

/-- Modelled from the spec: the TaxonomyIndex contract, `lookup(taxon_id)`
maps exactly the taxon identifiers in column 1 of the data rows (every line
after the header) to their full rows; the header line is never a lookup
entry.  The awk array in the source is compared against this. -/
def lookup_spec (taxLines : List (List String)) :
    String → Option (List String) :=
  (taxLines.drop 1).foldl taxInsert (fun _ => none)

/-! ### pandas stage: reading `classified_full.tsv`

`classified_full.tsv` is the header `centroid<TAB>identity<TAB><taxonomy
header>` followed by the classified rows.  `pd.read_csv` pads a data line
that has fewer fields than the header with NaN cells; a dataframe cell is
therefore an `Option String`, with `none` for NaN. -/

/-- The header of `classified_full.tsv`, from step (4) of the pipeline:
`printf "centroid\tidentity\t%s\n" "$(head -n1 taxonomy.tsv)"`. -/
def fullHeader (taxLines : List (List String)) : List String :=
  ["centroid", "identity"] ++ taxHeader taxLines

/-- Read one raw line as a dataframe row: known fields, then NaN padding
up to the header width. -/
def padRow (n : Nat) (r : List String) : List (Option String) :=
  r.map some ++ List.replicate (n - r.length) none

/-- `pd.read_csv(classified_full_path, sep="\t")`, given the header. -/
def readDf (header : List String) (rawRows : List (List String)) :
    List (List (Option String)) :=
  rawRows.map (padRow header.length)

/-- The dataframe produced for a sample from the taxonomy table and the
vsearch hits. -/
def pipelineDf (taxLines : List (List String)) (hits : List Hit) :
    List (List (Option String)) :=
  readDf (fullHeader taxLines) (classified_full (tax taxLines) hits)

/-- `df["species"]` for a single row: the cell in the column the header
names `species` (a KeyError when the header has no such column is not
modelled; theorems assume the column exists where they need it). -/
def dfSpecies (header : List String) (row : List (Option String)) :
    Option String :=
  if "species" ∈ header then row.getD (header.indexOf "species") none
  else none

/-- The `species` column of the dataframe. -/
def speciesCol (header : List String) (rows : List (List (Option String))) :
    List (Option String) :=
  rows.map (dfSpecies header)

/-! ### pandas stage: abundance -/

/-- `str.replace(" ", "_", regex=False)`: since the pattern is the single
character `' '`, replacing every occurrence is replacing every space
character. -/
def replaceSpaces (s : String) : String :=
  String.mk (s.data.map (fun c => if c = ' ' then '_' else c))

/-- `species_norm = df["species"].str.replace(" ", "_", regex=False)`:
the normalized species column; NaN cells stay NaN. -/
def species_norm (sp : List (Option String)) : List (Option String) :=
  sp.map (Option.map replaceSpaces)

/-- `value_counts()` without normalization: the count of each distinct
value of the (NaN-free) series.  pandas orders the result by descending
count; the order is not modelled, the table is consumed only by key lookup
and summation. -/
def value_counts (l : List String) : List (String × Nat) :=
  l.dedup.map (fun s => (s, l.count s))

/-- `normalize=True`: each count divided by the sum of the counts. -/
def normalizeCounts (vc : List (String × Nat)) : List (String × Rat) :=
  vc.map (fun p => (p.1, (p.2 : Rat) / ((vc.map Prod.snd).sum : Rat)))

/-- `abundance_table = species_norm.value_counts(normalize=True)`:
`value_counts` drops the NaN entries of the series (dropna defaults to
True), so the counted values are the non-null normalized species names. -/
def abundance_table (sp : List (Option String)) : List (String × Rat) :=
  normalizeCounts (value_counts ((species_norm sp).filterMap id))

/-- The sum of the abundance fractions over all distinct normalized
species names (the entries of the abundance table). -/
def abundance_table_sum (sp : List (Option String)) : Rat :=
  ((abundance_table sp).map Prod.snd).sum

/-- Key lookup in the abundance table (its keys are duplicate-free). -/
def lookupTable (t : List (String × Rat)) (k : String) : Option Rat :=
  (t.find? (fun p => p.1 == k)).map Prod.snd

/-- The `abundance` value the left merge on `species_norm` attaches to a
row whose `species` cell is `v`: the table value under the row's
normalized key, NaN when the key is absent (in particular when the cell is
NaN, since the table has no NaN key). -/
def rowAbund (sp : List (Option String)) (v : Option String) : Option Rat :=
  (v.map replaceSpaces).bind (lookupTable (abundance_table sp))

/-- `classified_full_with_abundance`: the dataframe after
`df["species_norm"] = species_norm`, the left merge with
`abundance_table` on `species_norm`, and `drop(columns=["species_norm"])`.
The table's key list is duplicate-free, so the merge keeps exactly the
original rows, each paired with its abundance value. -/
def df_with_abundance (header : List String)
    (rows : List (List (Option String))) :
    List (List (Option String) × Option Rat) :=
  rows.map (fun r => (r, rowAbund (speciesCol header rows) (dfSpecies header r)))

/-- `.sum()` over a float column skips NaN cells. -/
def sumOpt (l : List (Option Rat)) : Rat :=
  (l.map (fun a => a.getD 0)).sum

/-- `abundance_sum = df["abundance"].sum()` (line 108). -/
def abundance_sum (header : List String)
    (rows : List (List (Option String))) : Rat :=
  sumOpt ((df_with_abundance header rows).map Prod.snd)

/-- Modelled from the spec: the AbundanceCalculator contract
`count(rows with that species) / total_row_count`, with every row of the
sample — null-species rows included — in the denominator. -/
def abundance_spec (sp : List (Option String)) (s : String) : Rat :=
  (((species_norm sp).count (some s) : Nat) : Rat) / ((sp.length : Nat) : Rat)

/-! ### pandas stage: deduplication -/

/-- `drop_duplicates` kernel: scan the rows in order, keep a row when its
key has not been seen, remember the key. -/
def dedupAux {α β : Type} [DecidableEq β] (key : α → β) (seen : List β) :
    List α → List α
  | [] => []
  | r :: rest =>
      if key r ∈ seen then dedupAux key seen rest
      else r :: dedupAux key (key r :: seen) rest

/-- `df.drop_duplicates(subset=[...])`: keep the first row per distinct
key value; pandas treats NaN keys as duplicates of each other, which the
`Option`-valued key gives for free. -/
def drop_duplicates {α β : Type} [DecidableEq β] (key : α → β)
    (rows : List α) : List α :=
  dedupAux key [] rows

/-- `df_clean = df.drop_duplicates(subset=["species"])` on the re-read
intermediate dataframe: dedup by the exact (un-normalized) `species`
cell. -/
def df_clean (header : List String) (rows : List (List (Option String))) :
    List (List (Option String) × Option Rat) :=
  drop_duplicates (fun p => dfSpecies header p.1) (df_with_abundance header rows)

/-- `total_abundance = df_clean["abundance"].sum()` (line 124). -/
def total_abundance (header : List String)
    (rows : List (List (Option String))) : Rat :=
  sumOpt ((df_clean header rows).map Prod.snd)

/-! Basic facts about the lookup array. -/

theorem taxLoop_ne_one (nr : Nat) (hnr : nr ≠ 1) (rows : List (List String))
    (t : String → Option (List String)) :
    taxLoop nr rows t = rows.foldl taxInsert t := by
  induction rows generalizing t with
  | nil => rfl
  | cons row rest ih =>
      simp only [taxLoop, if_neg hnr, List.foldl_cons]
      exact ih (taxInsert t row)

/-- Any binding produced by the loop maps a key to a row whose first field
is that key (and the row is nonempty when every input line is). -/
theorem taxLoop_headD (nr : Nat) (rows : List (List String))
    (t : String → Option (List String))
    (hrows : ∀ l ∈ rows, l ≠ [])
    (ht : ∀ k r, t k = some r → r ≠ [] ∧ r.headD "" = k) :
    ∀ k r, taxLoop nr rows t k = some r → r ≠ [] ∧ r.headD "" = k := by
  induction rows generalizing t with
  | nil => exact ht
  | cons row rest ih =>
      intro k r
      have hrow : row ≠ [] := hrows row (List.mem_cons_self row rest)
      have hrest : ∀ l ∈ rest, l ≠ [] := fun l hl => hrows l (List.mem_cons_of_mem row hl)
      simp only [taxLoop]
      by_cases hnr : nr = 1
      · rw [if_pos hnr]
        exact ih t hrest ht k r
      · rw [if_neg hnr]
        refine ih (taxInsert t row) hrest ?_ k r
        intro k' r' hins
        unfold taxInsert at hins
        by_cases hk : k' = row.headD ""
        · rw [if_pos hk] at hins
          cases hins
          exact ⟨hrow, hk.symm⟩
        · rw [if_neg hk] at hins
          exact ht k' r' hins

theorem tax_headD (taxLines : List (List String))
    (hlines : ∀ l ∈ taxLines, l ≠ []) :
    ∀ k r, tax taxLines k = some r → r ≠ [] ∧ r.headD "" = k :=
  taxLoop_headD 0 taxLines (fun _ => none) hlines (by intro k r h; cases h)

/-- C3: `getline < file` leaves `NR` at 0, so the `NR==1` guard never
fires and the header line of `taxonomy.tsv` IS stored as a lookup entry,
keyed by its first field — contrary to the TaxonomyIndex contract (and to
the clear intent of the `if (NR==1) { header = $0; continue }` branch,
which is dead code: `header` is never assigned).  At the two-line table
`taxid<TAB>species` / `7<TAB>Homo sapiens`, the awk array answers the key
`taxid` with the header row, while the spec-modelled index does not. -/
theorem c3_header_stored_in_lookup :
    tax [["taxid", "species"], ["7", "Homo sapiens"]] "taxid" =
      some ["taxid", "species"] ∧
    lookup_spec [["taxid", "species"], ["7", "Homo sapiens"]] "taxid" = none ∧
    tax [["taxid", "species"], ["7", "Homo sapiens"]] "7" =
      some ["7", "Homo sapiens"] ∧
    lookup_spec [["taxid", "species"], ["7", "Homo sapiens"]] "7" =
      some ["7", "Homo sapiens"] := by
  refine ⟨by decide, by decide, by decide, by decide⟩

/-- C4: every classified row carries, as its third field, exactly the part
of the hit's `target_id` that precedes the first `:`.  In the known branch
that field is the first field of the taxonomy row found under the key
`tid`, which `tax` only ever binds to rows whose first field equals the
key; in the unknown branch it is `tid` itself.  Taxonomy lines are
nonempty field lists (splitting a line on tabs always yields at least one
field). -/
theorem c4_taxon_id_before_colon (taxLines : List (List String))
    (hlines : ∀ l ∈ taxLines, l ≠ []) (h : Hit) :
    (classifyHit (tax taxLines) h)[2]? = some (tid h.targetId) := by
  unfold classifyHit
  cases htax : tax taxLines (tid h.targetId) with
  | none => rfl
  | some row =>
      obtain ⟨hne, hhead⟩ := tax_headD taxLines hlines _ row htax
      cases row with
      | nil => exact absurd rfl hne
      | cons a rest =>
          simp only [List.headD_cons] at hhead
          simp [hhead]

/-- Witness for C4 at a concrete taxonomy table and hit. -/
theorem c4_taxon_id_before_colon_witness :
    (classifyHit (tax [["taxid", "species"], ["7", "Homo sapiens"]])
        ⟨"read1", "7:ref42", "0.97"⟩)[2]? =
      some (tid "7:ref42") :=
  c4_taxon_id_before_colon [["taxid", "species"], ["7", "Homo sapiens"]]
    (by decide) ⟨"read1", "7:ref42", "0.97"⟩


/-! Counting lemmas shared by the abundance theorems. -/

theorem sum_dedup_count {α : Type} [DecidableEq α] (l : List α) :
    ((l.dedup).map (fun s => l.count s)).sum = l.length := by
  have h1 := List.sum_toFinset (fun s => l.count s) (List.nodup_dedup l)
  have h2 : l.dedup.toFinset = l.toFinset := by
    ext x
    simp
  rw [h2] at h1
  rw [← h1]
  exact List.sum_toFinset_count_eq_length l

theorem count_filterMap_id {α : Type} [DecidableEq α] (l : List (Option α))
    (a : α) : (l.filterMap id).count a = l.count (some a) := by
  induction l with
  | nil => rfl
  | cons v rest ih =>
      cases v with
      | none => simpa [List.filterMap_cons, List.count_cons] using ih
      | some b => simp [List.filterMap_cons, List.count_cons, ih]

theorem length_filterMap_id {α : Type} (l : List (Option α)) :
    (l.filterMap id).length = l.countP (fun v => v.isSome) := by
  induction l with
  | nil => rfl
  | cons v rest ih =>
      cases v with
      | none => simpa [List.filterMap_cons, List.countP_cons] using ih
      | some b => simp [List.filterMap_cons, List.countP_cons, ih]

theorem find?_keyed_map {β : Type} (ks : List String) (f : String → β)
    (k : String) (hk : k ∈ ks) :
    (ks.map (fun s => (s, f s))).find? (fun p => p.1 == k) = some (k, f k) := by
  induction ks with
  | nil => cases hk
  | cons a rest ih =>
      by_cases hak : a = k
      · subst hak
        simp [List.find?_cons]
      · have hk' : k ∈ rest := by
          rcases List.mem_cons.mp hk with h | h
          · exact absurd h.symm hak
          · exact h
        have hbeq : ((a, f a).1 == k) = false := by
          simp [hak]
        simp only [List.map_cons, List.find?_cons, hbeq]
        exact ih hk'

theorem value_counts_total (l : List String) :
    ((value_counts l).map Prod.snd).sum = l.length := by
  simp only [value_counts, List.map_map]
  exact sum_dedup_count l

theorem normalizeCounts_sum (l : List String) (hne : l ≠ []) :
    ((normalizeCounts (value_counts l)).map Prod.snd).sum = 1 := by
  have htot := value_counts_total l
  have hlen : ((l.length : Nat) : Rat) ≠ 0 := by
    simp only [ne_eq, Nat.cast_eq_zero, List.length_eq_zero]
    exact hne
  simp only [normalizeCounts, List.map_map, Function.comp_def, htot,
    div_eq_mul_inv]
  rw [List.sum_map_mul_right]
  have hcast : (List.map (fun p : String × Nat => (p.2 : Rat))
      (value_counts l)).sum = ((List.map Prod.snd (value_counts l)).sum : Nat) := by
    rw [Nat.cast_list_sum, List.map_map]
    rfl
  rw [hcast, htot, mul_inv_cancel₀ hlen]

theorem countP_isSome_species_norm (sp : List (Option String)) :
    (species_norm sp).countP (fun v => v.isSome) =
      sp.countP (fun v => v.isSome) := by
  unfold species_norm
  rw [List.countP_map]
  apply List.countP_congr
  intro v _
  cases v <;> simp [Function.comp]

/-- C1 counterexample: a sample with no classified rows.  All of its rows
(vacuously) carry a non-null species field, yet the abundance table is
empty and its fractions sum to 0, not within 1e-9 of 1. -/
theorem c1_empty_sample_sum_zero :
    ([] : List (Option String)).all (fun v => v.isSome) = true ∧
    abundance_table_sum ([] : List (Option String)) = 0 ∧
    ¬ (|abundance_table_sum ([] : List (Option String)) - 1| ≤
        1 / 1000000000) := by
  refine ⟨rfl, rfl, by norm_num [abundance_table_sum, abundance_table,
    species_norm, value_counts, normalizeCounts]⟩

/-- C1 (amended): for every sample with at least one classified row, all
of whose rows carry a non-null species field, the abundance fractions
summed over all distinct normalized species names equal exactly 1 (hence
in particular lie within relative error 1e-9 of 1.0). -/
theorem c1_abundance_fractions_sum_to_one (sp : List (Option String))
    (hne : sp ≠ []) (hall : ∀ v ∈ sp, v.isSome = true) :
    abundance_table_sum sp = 1 := by
  unfold abundance_table_sum abundance_table
  apply normalizeCounts_sum
  cases sp with
  | nil => exact absurd rfl hne
  | cons v rest =>
      have hv := hall v (List.mem_cons_self v rest)
      cases v with
      | none => simp at hv
      | some s => simp [species_norm, List.filterMap_cons]

/-- Witness for C1 at a concrete two-species sample. -/
theorem c1_abundance_fractions_sum_to_one_witness :
    abundance_table_sum [some "Homo sapiens", some "Homo sapiens",
      some "Mus musculus", some "Homo sapiens"] = 1 :=
  c1_abundance_fractions_sum_to_one
    [some "Homo sapiens", some "Homo sapiens", some "Mus musculus",
      some "Homo sapiens"]
    (by decide) (by decide)

/-- C2 counterexample: `value_counts(normalize=True)` divides by the
number of non-null entries, not by the total row count.  At a sample with
one `A` row and one null-species row the code attaches abundance 1 to the
`A` row, while `count / total_row_count` per the claim is 1/2. -/
theorem c2_null_rows_excluded_from_denominator :
    rowAbund [some "A", none] (some "A") = some 1 ∧
    abundance_spec [some "A", none] "A" = 1 / 2 ∧
    (1 : Rat) ≠ 1 / 2 := by
  refine ⟨?_, ?_, by norm_num⟩
  · have h : rowAbund [some "A", none] (some "A") =
        some ((1 : Rat) / (1 : Rat)) := rfl
    rw [h]
    norm_num
  · have h : abundance_spec [some "A", none] "A" =
        ((1 : Nat) : Rat) / ((2 : Nat) : Rat) := rfl
    rw [h]
    norm_num

/-- The merged abundance value of a non-null species cell, in closed
form: rows with the same normalized species over rows with a non-null
species. -/
theorem rowAbund_some_eq (sp : List (Option String))
    (s : String) (hmem : some s ∈ sp) :
    rowAbund sp (some s) =
      some ((((species_norm sp).count (some (replaceSpaces s)) : Nat) : Rat) /
        ((sp.countP (fun v => v.isSome) : Nat) : Rat)) := by
  have hmemL : replaceSpaces s ∈ (species_norm sp).filterMap id := by
    rw [List.mem_filterMap]
    refine ⟨some (replaceSpaces s), ?_, rfl⟩
    unfold species_norm
    exact List.mem_map.mpr ⟨some s, hmem, rfl⟩
  have hmemD : replaceSpaces s ∈ ((species_norm sp).filterMap id).dedup :=
    List.mem_dedup.mpr hmemL
  have htab : abundance_table sp =
      ((species_norm sp).filterMap id).dedup.map
        (fun t => (t, ((((species_norm sp).filterMap id).count t : Nat) : Rat) /
          (((((species_norm sp).filterMap id).length : Nat)) : Rat))) := by
    unfold abundance_table normalizeCounts
    rw [value_counts_total]
    unfold value_counts
    rw [List.map_map]
    rfl
  have hrow : rowAbund sp (some s) =
      lookupTable (abundance_table sp) (replaceSpaces s) := rfl
  rw [hrow, htab]
  unfold lookupTable
  rw [find?_keyed_map _ _ (replaceSpaces s) hmemD]
  simp only [Option.map_some']
  rw [count_filterMap_id, length_filterMap_id, countP_isSome_species_norm]

/-- C2 (amended): the abundance attached to a row whose species is `s`
equals the number of rows with the same normalized species divided by the
number of rows with a NON-NULL species field; null-species rows are
excluded both from the species grouping and from the denominator. -/
theorem c2_abundance_is_count_over_nonnull (sp : List (Option String))
    (s : String) (hmem : some s ∈ sp) :
    rowAbund sp (some s) =
      some ((((species_norm sp).count (some (replaceSpaces s)) : Nat) : Rat) /
        ((sp.countP (fun v => v.isSome) : Nat) : Rat)) :=
  rowAbund_some_eq sp s hmem

/-- Witness for C2 at a concrete sample with a null-species row. -/
theorem c2_abundance_is_count_over_nonnull_witness :
    rowAbund [some "A B", some "A_B", none] (some "A B") =
      some ((((species_norm [some "A B", some "A_B", none]).count
          (some (replaceSpaces "A B")) : Nat) : Rat) /
        (([some "A B", some "A_B", none].countP
          (fun v => v.isSome) : Nat) : Rat)) :=
  c2_abundance_is_count_over_nonnull [some "A B", some "A_B", none] "A B"
    (by decide)

/-! Properties of the `drop_duplicates` kernel. -/

theorem dedupAux_sublist {α β : Type} [DecidableEq β] (key : α → β)
    (seen : List β) (rows : List α) :
    (dedupAux key seen rows).Sublist rows := by
  induction rows generalizing seen with
  | nil => exact List.Sublist.refl []
  | cons r rest ih =>
      simp only [dedupAux]
      by_cases h : key r ∈ seen
      · rw [if_pos h]
        exact (ih seen).cons r
      · rw [if_neg h]
        exact (ih (key r :: seen)).cons₂ r

theorem dedupAux_key_not_seen {α β : Type} [DecidableEq β] (key : α → β)
    (seen : List β) (rows : List α) :
    ∀ x ∈ dedupAux key seen rows, key x ∉ seen := by
  induction rows generalizing seen with
  | nil => intro x hx; cases hx
  | cons r rest ih =>
      intro x hx
      simp only [dedupAux] at hx
      by_cases h : key r ∈ seen
      · rw [if_pos h] at hx
        exact ih seen x hx
      · rw [if_neg h] at hx
        rcases List.mem_cons.mp hx with hx | hx
        · subst hx
          exact h
        · have := ih (key r :: seen) x hx
          intro hc
          exact this (List.mem_cons_of_mem _ hc)

theorem dedupAux_keys_nodup {α β : Type} [DecidableEq β] (key : α → β)
    (seen : List β) (rows : List α) :
    ((dedupAux key seen rows).map key).Nodup := by
  induction rows generalizing seen with
  | nil => exact List.nodup_nil
  | cons r rest ih =>
      simp only [dedupAux]
      by_cases h : key r ∈ seen
      · rw [if_pos h]
        exact ih seen
      · rw [if_neg h]
        rw [List.map_cons, List.nodup_cons]
        refine ⟨?_, ih (key r :: seen)⟩
        intro hmem
        rcases List.mem_map.mp hmem with ⟨x, hx, hkx⟩
        exact dedupAux_key_not_seen key _ rest x hx
          (hkx ▸ List.mem_cons_self (key r) seen)

theorem dedupAux_first_occurrence {α β : Type} [DecidableEq α]
    [DecidableEq β] (key : α → β) (seen : List β) (rows : List α) :
    ∀ x ∈ dedupAux key seen rows,
      rows.find? (fun r => decide (key r = key x)) = some x := by
  induction rows generalizing seen with
  | nil => intro x hx; cases hx
  | cons r rest ih =>
      intro x hx
      simp only [dedupAux] at hx
      by_cases h : key r ∈ seen
      · rw [if_pos h] at hx
        have hne : key r ≠ key x := by
          intro hc
          exact dedupAux_key_not_seen key seen rest x hx (hc ▸ h)
        rw [List.find?_cons_of_neg _ (by simpa using hne)]
        exact ih seen x hx
      · rw [if_neg h] at hx
        rcases List.mem_cons.mp hx with hx | hx
        · subst hx
          rw [List.find?_cons_of_pos _ (by simp)]
        · have hnotin := dedupAux_key_not_seen key (key r :: seen) rest x hx
          have hne : key r ≠ key x := by
            intro hc
            exact hnotin (hc ▸ List.mem_cons_self (key r) seen)
          rw [List.find?_cons_of_neg _ (by simpa using hne)]
          exact ih (key r :: seen) x hx

theorem dedupAux_covers {α β : Type} [DecidableEq β] (key : α → β)
    (seen : List β) (rows : List α) :
    ∀ x ∈ rows, key x ∈ seen ∨ ∃ q ∈ dedupAux key seen rows, key q = key x := by
  induction rows generalizing seen with
  | nil => intro x hx; cases hx
  | cons r rest ih =>
      intro x hx
      simp only [dedupAux]
      by_cases h : key r ∈ seen
      · rw [if_pos h]
        rcases List.mem_cons.mp hx with hx | hx
        · exact Or.inl (hx ▸ h)
        · exact ih seen x hx
      · rw [if_neg h]
        rcases List.mem_cons.mp hx with hx | hx
        · subst hx
          exact Or.inr ⟨x, List.mem_cons_self x _, rfl⟩
        · rcases ih (key r :: seen) x hx with hseen | ⟨q, hq, hkq⟩
          · rcases List.mem_cons.mp hseen with heq | hseen
            · exact Or.inr ⟨r, List.mem_cons_self r _, heq.symm⟩
            · exact Or.inl hseen
          · exact Or.inr ⟨q, List.mem_cons_of_mem r hq, hkq⟩

theorem countP_isNone_le_one_of_nodup {α : Type} (l : List (Option α))
    (h : l.Nodup) : l.countP (fun v => v.isNone) ≤ 1 := by
  induction l with
  | nil => simp
  | cons v rest ih =>
      rw [List.nodup_cons] at h
      rcases h with ⟨hv, hrest⟩
      rw [List.countP_cons]
      cases v with
      | some a => simpa using ih hrest
      | none =>
          have hzero : rest.countP (fun v => v.isNone) = 0 := by
            rw [List.countP_eq_zero]
            intro a ha
            cases a with
            | none => exact absurd ha hv
            | some b => simp
          simp [hzero]

/-- C5: the Deduplicator keeps, in original order, the first row observed
for each distinct exact species value and discards every later row with
the same species: the result is a sublist of the input, its species keys
are pairwise distinct (at most one row per species value), every kept row
is the first row of the input bearing its species key, and every input
row's species key is represented by some kept row. -/
theorem c5_drop_duplicates_first_per_species (header : List String)
    (rows : List (List (Option String) × Option Rat)) :
    (drop_duplicates (fun p => dfSpecies header p.1) rows).Sublist rows ∧
    ((drop_duplicates (fun p => dfSpecies header p.1) rows).map
      (fun p => dfSpecies header p.1)).Nodup ∧
    (∀ p ∈ drop_duplicates (fun p => dfSpecies header p.1) rows,
      rows.find?
        (fun q => decide (dfSpecies header q.1 = dfSpecies header p.1)) =
        some p) ∧
    (∀ p ∈ rows, ∃ q ∈ drop_duplicates (fun p => dfSpecies header p.1) rows,
      dfSpecies header q.1 = dfSpecies header p.1) := by
  refine ⟨dedupAux_sublist _ [] rows, dedupAux_keys_nodup _ [] rows,
    dedupAux_first_occurrence _ [] rows, ?_⟩
  intro p hp
  rcases dedupAux_covers (fun p => dfSpecies header p.1) [] rows p hp with
    hseen | hcov
  · cases hseen
  · exact hcov

/-- Witness for C5 at a concrete three-row table: the duplicate `A` row
is discarded and the first `A` row is the one found for its key. -/
theorem c5_drop_duplicates_first_per_species_witness :
    ([([some "A"], some (1 : Rat)), ([some "A"], none),
        ([some "B"], none)].find?
      (fun q => decide (dfSpecies ["species"] q.1 = dfSpecies ["species"]
        ([some "A"], some (1 : Rat)).1))) =
      some ([some "A"], some (1 : Rat)) := by
  have h := (c5_drop_duplicates_first_per_species ["species"]
    [([some "A"], some (1 : Rat)), ([some "A"], none),
      ([some "B"], none)]).2.2.1
  have hmem : ([some "A"], some (1 : Rat)) ∈
      drop_duplicates (fun p => dfSpecies ["species"] p.1)
        [([some "A"], some (1 : Rat)), ([some "A"], none),
          ([some "B"], none)] := by
    rw [show drop_duplicates (fun p => dfSpecies ["species"] p.1)
        [([some "A"], some (1 : Rat)), ([some "A"], none),
          ([some "B"], none)] =
        [([some "A"], some (1 : Rat)), ([some "B"], none)] from rfl]
    exact List.mem_cons_self _ _
  have hfound := h ([some "A"], some (1 : Rat)) hmem
  exact hfound

/-- C10: after deduplication at most one row with a missing species value
remains, whatever distinct unresolved taxon identifiers the null-species
rows carry: pandas treats NaN keys as duplicates of one another. -/
theorem c10_at_most_one_null_species_row (header : List String)
    (rows : List (List (Option String))) :
    (df_clean header rows).countP
      (fun p => (dfSpecies header p.1).isNone) ≤ 1 := by
  have hnodup : ((df_clean header rows).map
      (fun p => dfSpecies header p.1)).Nodup :=
    dedupAux_keys_nodup _ [] _
  have h2 := countP_isNone_le_one_of_nodup _ hnodup
  rw [List.countP_map] at h2
  simpa [Function.comp_def] using h2

/-- C8: species-name normalization touches only the grouping key: the row
part of the merged dataframe is exactly the input rows (in particular the
stored species value is the original string verbatim), while every
grouping key of the abundance table is the normalized form of a species
string present in the sample. -/
theorem c8_normalization_only_grouping_key (header : List String)
    (rows : List (List (Option String))) :
    (df_with_abundance header rows).map Prod.fst = rows ∧
    (∀ k ∈ (abundance_table (speciesCol header rows)).map Prod.fst,
      ∃ s, some s ∈ speciesCol header rows ∧ k = replaceSpaces s) := by
  constructor
  · unfold df_with_abundance
    rw [List.map_map]
    exact List.map_id rows
  · intro k hk
    unfold abundance_table normalizeCounts value_counts at hk
    simp only [List.map_map, Function.comp_def, List.mem_map] at hk
    rcases hk with ⟨t, ht, hkt⟩
    rw [List.mem_dedup, List.mem_filterMap] at ht
    rcases ht with ⟨v, hv, hvt⟩
    unfold species_norm at hv
    rcases List.mem_map.mp hv with ⟨w, hw, hwv⟩
    cases w with
    | none =>
        rw [← hwv] at hvt
        cases hvt
    | some s =>
        refine ⟨s, hw, ?_⟩
        rw [← hwv] at hvt
        cases hvt
        exact hkt.symm

/-- Witness for C8 at a one-row sample with species `Homo sapiens`. -/
theorem c8_normalization_only_grouping_key_witness :
    ∃ s, some s ∈ speciesCol ["species"] [[some "Homo sapiens"]] ∧
      "Homo_sapiens" = replaceSpaces s :=
  (c8_normalization_only_grouping_key ["species"]
      [[some "Homo sapiens"]]).2 "Homo_sapiens" (by decide)

/-- C9: the abundance value attached by the merge is a function of the
normalized species name only: two rows of the same sample whose species
values share a normalized form receive the same abundance value, even
when the exact strings differ. -/
theorem c9_abundance_function_of_normalized_name (header : List String)
    (rows : List (List (Option String))) (r1 r2 : List (Option String))
    (s1 s2 : String) (hr1 : r1 ∈ rows) (hr2 : r2 ∈ rows)
    (h1 : dfSpecies header r1 = some s1) (h2 : dfSpecies header r2 = some s2)
    (hnorm : replaceSpaces s1 = replaceSpaces s2) :
    ∃ a, (r1, a) ∈ df_with_abundance header rows ∧
      (r2, a) ∈ df_with_abundance header rows := by
  refine ⟨rowAbund (speciesCol header rows) (dfSpecies header r1),
    List.mem_map.mpr ⟨r1, hr1, rfl⟩, ?_⟩
  have heq : rowAbund (speciesCol header rows) (dfSpecies header r1) =
      rowAbund (speciesCol header rows) (dfSpecies header r2) := by
    rw [h1, h2]
    unfold rowAbund
    simp only [Option.map_some', Option.some_bind, hnorm]
  rw [heq]
  exact List.mem_map.mpr ⟨r2, hr2, rfl⟩

/-- Witness for C9: `Homo sapiens` and `Homo_sapiens` rows of the same
sample share one abundance value. -/
theorem c9_abundance_function_of_normalized_name_witness :
    ∃ a, ([some "Homo sapiens"], a) ∈
        df_with_abundance ["species"]
          [[some "Homo sapiens"], [some "Homo_sapiens"]] ∧
      ([some "Homo_sapiens"], a) ∈
        df_with_abundance ["species"]
          [[some "Homo sapiens"], [some "Homo_sapiens"]] :=
  c9_abundance_function_of_normalized_name ["species"]
    [[some "Homo sapiens"], [some "Homo_sapiens"]]
    [some "Homo sapiens"] [some "Homo_sapiens"] "Homo sapiens"
    "Homo_sapiens" (by decide) (by decide) (by decide) (by decide)
    (by decide)

theorem padRow_getD_none (n : Nat) (r : List String) (i : Nat)
    (hi : r.length ≤ i) : (padRow n r).getD i none = none := by
  unfold padRow
  rw [List.getD_eq_getElem?_getD]
  rw [List.getElem?_append_right (by simpa using hi)]
  rw [List.getElem?_replicate]
  by_cases hlt : i - (r.map some).length < n - r.length
  · rw [if_pos hlt]
    rfl
  · rw [if_neg hlt]
    rfl

/-- C7: a hit whose derived taxon identifier is not a key of the lookup
array yields the row `query_id, identity, taxon id, "UNKNOWN"`; that row
is shorter than any known-branch row built from a taxonomy row with at
least three fields; and once read back by pandas its `species` cell is NaN
(the species column sits past its four fields), so appending such a hit to
a sample changes no species' row count — it contributes to no named
species' abundance fraction. -/
theorem c7_unknown_hit_row (taxLines : List (List String)) (hits : List Hit)
    (h hK : Hit) (trow : List String)
    (hmiss : tax taxLines (tid h.targetId) = none)
    (hknown : tax taxLines (tid hK.targetId) = some trow)
    (htrow : 3 ≤ trow.length)
    (hspec : "species" ∈ fullHeader taxLines)
    (hidx : 4 ≤ (fullHeader taxLines).indexOf "species") :
    classifyHit (tax taxLines) h =
      [h.queryId, h.identity, tid h.targetId, "UNKNOWN"] ∧
    (classifyHit (tax taxLines) h).length <
      (classifyHit (tax taxLines) hK).length ∧
    ∀ s : String,
      (speciesCol (fullHeader taxLines)
        (pipelineDf taxLines (hits ++ [h]))).count (some s) =
      (speciesCol (fullHeader taxLines)
        (pipelineDf taxLines hits)).count (some s) := by
  have hrow : classifyHit (tax taxLines) h =
      [h.queryId, h.identity, tid h.targetId, "UNKNOWN"] := by
    unfold classifyHit
    rw [hmiss]
  refine ⟨hrow, ?_, ?_⟩
  · have hrowK : classifyHit (tax taxLines) hK =
        [hK.queryId, hK.identity] ++ trow := by
      unfold classifyHit
      rw [hknown]
    rw [hrow, hrowK]
    simp only [List.length_cons, List.length_append, List.length_nil]
    omega
  · intro s
    have hlast : dfSpecies (fullHeader taxLines)
        (padRow (fullHeader taxLines).length (classifyHit (tax taxLines) h)) =
        none := by
      unfold dfSpecies
      rw [if_pos hspec]
      apply padRow_getD_none
      rw [hrow]
      simpa using hidx
    unfold pipelineDf readDf classified_full speciesCol
    rw [List.map_append, List.map_append, List.map_append]
    simp only [List.map_cons, List.map_nil]
    rw [List.count_append]
    rw [hlast]
    simp

/-- Witness for C7 at a concrete taxonomy (species in lineage column 3)
and an unmatched hit. -/
theorem c7_unknown_hit_row_witness :
    classifyHit (tax [["taxid", "genus", "species"],
        ["7", "Homo", "Homo sapiens"]]) ⟨"r1", "99:x", "0.90"⟩ =
      ["r1", "0.90", tid "99:x", "UNKNOWN"] ∧
    (classifyHit (tax [["taxid", "genus", "species"],
        ["7", "Homo", "Homo sapiens"]]) ⟨"r1", "99:x", "0.90"⟩).length <
      (classifyHit (tax [["taxid", "genus", "species"],
        ["7", "Homo", "Homo sapiens"]]) ⟨"r2", "7:y", "0.95"⟩).length ∧
    (speciesCol
        (fullHeader [["taxid", "genus", "species"],
          ["7", "Homo", "Homo sapiens"]])
        (pipelineDf [["taxid", "genus", "species"],
          ["7", "Homo", "Homo sapiens"]]
          ([⟨"r2", "7:y", "0.95"⟩] ++ [⟨"r1", "99:x", "0.90"⟩]))).count
        (some "Homo sapiens") =
      (speciesCol
        (fullHeader [["taxid", "genus", "species"],
          ["7", "Homo", "Homo sapiens"]])
        (pipelineDf [["taxid", "genus", "species"],
          ["7", "Homo", "Homo sapiens"]]
          [⟨"r2", "7:y", "0.95"⟩])).count (some "Homo sapiens") := by
  have hthm := c7_unknown_hit_row
    [["taxid", "genus", "species"], ["7", "Homo", "Homo sapiens"]]
    [⟨"r2", "7:y", "0.95"⟩] ⟨"r1", "99:x", "0.90"⟩ ⟨"r2", "7:y", "0.95"⟩
    ["7", "Homo", "Homo sapiens"] (by decide) (by decide) (by decide)
    (by decide) (by decide)
  exact ⟨hthm.1, hthm.2.1, hthm.2.2 "Homo sapiens"⟩

/-! Lemmas for the deduplicated abundance sum. -/

theorem map_key_dedupAux {α β : Type} [DecidableEq β] (key : α → β)
    (seen : List β) (l : List α) :
    (dedupAux key seen l).map key = dedupAux id seen (l.map key) := by
  induction l generalizing seen with
  | nil => rfl
  | cons r rest ih =>
      simp only [dedupAux, List.map_cons, id_eq]
      by_cases h : key r ∈ seen
      · rw [if_pos h, if_pos h]
        exact ih seen
      · rw [if_neg h, if_neg h, List.map_cons, ih (key r :: seen)]

theorem dedupAux_id_nodup {β : Type} [DecidableEq β] (l : List β) :
    (dedupAux id [] l).Nodup := by
  have h := dedupAux_keys_nodup id [] l
  rwa [List.map_id] at h

theorem mem_dedupAux_id {β : Type} [DecidableEq β] (l : List β) (x : β) :
    x ∈ dedupAux id [] l ↔ x ∈ l := by
  constructor
  · intro hx
    exact (dedupAux_sublist id [] l).subset hx
  · intro hx
    rcases dedupAux_covers id [] l x hx with hseen | ⟨q, hq, hqx⟩
    · cases hseen
    · have hq' : q = x := by simpa using hqx
      exact hq' ▸ hq

theorem sum_map_eq_of_nodup_of_mem_iff {γ : Type} [DecidableEq γ]
    (l1 l2 : List γ) (g : γ → Rat) (h1 : l1.Nodup) (h2 : l2.Nodup)
    (hmem : ∀ x, x ∈ l1 ↔ x ∈ l2) :
    (l1.map g).sum = (l2.map g).sum := by
  rw [← List.sum_toFinset g h1, ← List.sum_toFinset g h2]
  congr 1
  ext x
  simp only [List.mem_toFinset]
  exact hmem x

theorem sum_map_option_zero_none {γ : Type} (l : List (Option γ))
    (g : Option γ → Rat) (h0 : g none = 0) :
    (l.map g).sum = ((l.filterMap id).map (fun s => g (some s))).sum := by
  induction l with
  | nil => rfl
  | cons v rest ih =>
      cases v with
      | none => simp [List.filterMap_cons, h0, ih]
      | some b => simp [List.filterMap_cons, ih]

theorem filterMap_id_map_option {γ δ : Type} (f : γ → δ)
    (l : List (Option γ)) :
    (l.map (Option.map f)).filterMap id = (l.filterMap id).map f := by
  induction l with
  | nil => rfl
  | cons v rest ih =>
      cases v with
      | none => simpa [List.filterMap_cons] using ih
      | some b => simp [List.filterMap_cons, ih]

theorem count_map_eq_countP {γ δ : Type} [DecidableEq δ] (f : γ → δ)
    (l : List γ) (b : δ) :
    (l.map f).count b = l.countP (fun a => f a == b) := by
  induction l with
  | nil => rfl
  | cons x rest ih =>
      by_cases hfb : f x = b
      · simp [List.map_cons, List.count_cons, List.countP_cons, ih, hfb]
      · simp [List.map_cons, List.count_cons, List.countP_cons, ih, hfb,
          Ne.symm hfb]

theorem sum_dedup_count_rat (l : List String) :
    (l.dedup.map (fun s => ((l.count s : Nat) : Rat))).sum =
      ((l.length : Nat) : Rat) := by
  have h1 : l.dedup.map (fun s => ((l.count s : Nat) : Rat)) =
      (l.dedup.map (fun s => l.count s)).map (fun n : Nat => (n : Rat)) := by
    rw [List.map_map]
    rfl
  rw [h1, ← Nat.cast_list_sum, sum_dedup_count]

/-- The species cells of the merged dataframe are the species column. -/
theorem map_key_df_with_abundance (header : List String)
    (rows : List (List (Option String))) :
    (df_with_abundance header rows).map (fun p => dfSpecies header p.1) =
      speciesCol header rows := by
  unfold df_with_abundance speciesCol
  rw [List.map_map]
  rfl

/-- The abundance cell of every merged row is determined by its species
cell. -/
theorem snd_df_with_abundance (header : List String)
    (rows : List (List (Option String))) :
    ∀ p ∈ df_with_abundance header rows,
      p.2 = rowAbund (speciesCol header rows) (dfSpecies header p.1) := by
  intro p hp
  unfold df_with_abundance at hp
  rcases List.mem_map.mp hp with ⟨r, _, hr⟩
  rw [← hr]

/-- Core of the deduplicated-sum invariant, at the level of the species
column: when distinct species strings stay distinct after normalization
and at least one cell is non-null, summing the merged abundance over one
representative per distinct species cell gives exactly 1. -/
theorem sumOpt_rowAbund_dedup (sp : List (Option String))
    (hinj : ∀ s1 s2, some s1 ∈ sp → some s2 ∈ sp →
      replaceSpaces s1 = replaceSpaces s2 → s1 = s2)
    (hex : ∃ s, some s ∈ sp) :
    sumOpt ((dedupAux id [] sp).map (rowAbund sp)) = 1 := by
  obtain ⟨s0, hs0⟩ := hex
  have hS0 : s0 ∈ sp.filterMap id := List.mem_filterMap.mpr ⟨some s0, hs0, rfl⟩
  have hlenS : (sp.filterMap id).length ≠ 0 := by
    intro hc
    rw [List.length_eq_zero] at hc
    rw [hc] at hS0
    cases hS0
  have ha : sumOpt ((dedupAux id [] sp).map (rowAbund sp)) =
      ((dedupAux id [] sp).map (fun v => (rowAbund sp v).getD 0)).sum := by
    unfold sumOpt
    rw [List.map_map]
    rfl
  have hb : ((dedupAux id [] sp).map (fun v => (rowAbund sp v).getD 0)).sum =
      (sp.dedup.map (fun v => (rowAbund sp v).getD 0)).sum := by
    apply sum_map_eq_of_nodup_of_mem_iff
    · exact dedupAux_id_nodup sp
    · exact List.nodup_dedup sp
    · intro x
      rw [mem_dedupAux_id, List.mem_dedup]
  have hc : (sp.dedup.map (fun v => (rowAbund sp v).getD 0)).sum =
      ((sp.dedup.filterMap id).map
        (fun s => (rowAbund sp (some s)).getD 0)).sum :=
    sum_map_option_zero_none _ _ rfl
  have hd : ((sp.dedup.filterMap id).map
        (fun s => (rowAbund sp (some s)).getD 0)).sum =
      ((sp.filterMap id).dedup.map
        (fun s => (rowAbund sp (some s)).getD 0)).sum := by
    apply sum_map_eq_of_nodup_of_mem_iff
    · refine List.Nodup.filterMap ?_ (List.nodup_dedup sp)
      intro a b c hca hcb
      rw [Option.mem_def, id_eq] at hca hcb
      rw [hca, hcb]
    · exact List.nodup_dedup _
    · intro x
      simp [List.mem_filterMap, List.mem_dedup]
  have he : ((sp.filterMap id).dedup.map
        (fun s => (rowAbund sp (some s)).getD 0)).sum =
      ((sp.filterMap id).dedup.map
        (fun s => (((sp.filterMap id).count s : Nat) : Rat) /
          (((sp.filterMap id).length : Nat) : Rat))).sum := by
    congr 1
    apply List.map_congr_left
    intro s hs
    have hsS : s ∈ sp.filterMap id := List.mem_dedup.mp hs
    have hsome : some s ∈ sp := by
      rcases List.mem_filterMap.mp hsS with ⟨w, hw, hid⟩
      rw [id_eq] at hid
      rw [hid] at hw
      exact hw
    have hnum : (species_norm sp).count (some (replaceSpaces s)) =
        (sp.filterMap id).count s := by
      rw [← count_filterMap_id]
      unfold species_norm
      rw [filterMap_id_map_option, count_map_eq_countP, List.count_eq_countP]
      apply List.countP_congr
      intro a ha
      have haS : some a ∈ sp := by
        rcases List.mem_filterMap.mp ha with ⟨w, hw, hid⟩
        rw [id_eq] at hid
        rw [hid] at hw
        exact hw
      constructor
      · intro hba
        exact beq_iff_eq.mpr (hinj a s haS hsome (beq_iff_eq.mp hba))
      · intro hba
        exact beq_iff_eq.mpr (congrArg replaceSpaces (beq_iff_eq.mp hba))
    have hden : sp.countP (fun v => v.isSome) = (sp.filterMap id).length :=
      (length_filterMap_id sp).symm
    rw [rowAbund_some_eq sp s hsome, Option.getD_some, hnum, hden]
  have hf : ((sp.filterMap id).dedup.map
        (fun s => (((sp.filterMap id).count s : Nat) : Rat) /
          (((sp.filterMap id).length : Nat) : Rat))).sum = 1 := by
    simp only [div_eq_mul_inv]
    rw [List.sum_map_mul_right, sum_dedup_count_rat, mul_inv_cancel₀]
    exact Nat.cast_ne_zero.mpr hlenS
  exact ha.trans (hb.trans (hc.trans (hd.trans (he.trans hf))))

/-- C6 counterexample: deduplication keys on the exact species string but
abundance groups by the normalized one.  With rows `A B` and `A_B` both
rows survive deduplication and both carry the full fraction 1 of the
shared normalized species `A_B`, so the cleaned abundance column sums to
2, not within 1e-9 of 1. -/
theorem c6_cleaned_sum_two_after_normalization_collision :
    total_abundance ["species"] [[some "A B"], [some "A_B"]] = 2 ∧
    ¬ (|total_abundance ["species"] [[some "A B"], [some "A_B"]] - 1| ≤
        1 / 1000000000) := by
  have h : total_abundance ["species"] [[some "A B"], [some "A_B"]] =
      ((2 : Nat) : Rat) / ((2 : Nat) : Rat) +
        (((2 : Nat) : Rat) / ((2 : Nat) : Rat) + 0) := rfl
  rw [h]
  norm_num

/-- C6 (amended): the cleaned abundance column sums to exactly 1 for
every sample in which at least one row carries a non-null species and no
two distinct species strings share a normalized form (so each surviving
row carries the full aggregate fraction of its species exactly once; a
surviving null-species row has NaN abundance and contributes nothing). -/
theorem c6_cleaned_abundance_sums_to_one (header : List String)
    (rows : List (List (Option String)))
    (hinj : ∀ s1 s2, some s1 ∈ speciesCol header rows →
      some s2 ∈ speciesCol header rows →
      replaceSpaces s1 = replaceSpaces s2 → s1 = s2)
    (hex : ∃ s, some s ∈ speciesCol header rows) :
    total_abundance header rows = 1 := by
  unfold total_abundance df_clean drop_duplicates
  have hsnd : (dedupAux (fun p => dfSpecies header p.1) []
        (df_with_abundance header rows)).map Prod.snd =
      (dedupAux (fun p => dfSpecies header p.1) []
        (df_with_abundance header rows)).map
        (fun p => rowAbund (speciesCol header rows) (dfSpecies header p.1)) := by
    apply List.map_congr_left
    intro p hp
    exact snd_df_with_abundance header rows p
      ((dedupAux_sublist _ [] _).subset hp)
  rw [hsnd]
  have hmm : (dedupAux (fun p => dfSpecies header p.1) []
        (df_with_abundance header rows)).map
        (fun p => rowAbund (speciesCol header rows) (dfSpecies header p.1)) =
      ((dedupAux (fun p => dfSpecies header p.1) []
        (df_with_abundance header rows)).map
        (fun p => dfSpecies header p.1)).map
        (rowAbund (speciesCol header rows)) := by
    rw [List.map_map]
    rfl
  rw [hmm, map_key_dedupAux, map_key_df_with_abundance]
  exact sumOpt_rowAbund_dedup (speciesCol header rows) hinj hex

/-- Witness for C6 at a two-species sample with a null-species row. -/
theorem c6_cleaned_abundance_sums_to_one_witness :
    total_abundance ["centroid", "identity", "taxid", "species"]
      [[some "q1", some "0.99", some "7", some "Homo sapiens"],
       [some "q2", some "0.98", some "7", some "Homo sapiens"],
       [some "q3", some "0.97", some "8", some "Mus musculus"],
       [some "q4", some "0.91", some "9", none]] = 1 := by
  apply c6_cleaned_abundance_sums_to_one
  · intro s1 s2 h1 h2 hnorm
    rw [show speciesCol ["centroid", "identity", "taxid", "species"]
        [[some "q1", some "0.99", some "7", some "Homo sapiens"],
         [some "q2", some "0.98", some "7", some "Homo sapiens"],
         [some "q3", some "0.97", some "8", some "Mus musculus"],
         [some "q4", some "0.91", some "9", none]] =
      [some "Homo sapiens", some "Homo sapiens", some "Mus musculus", none]
      from rfl] at h1 h2
    simp only [List.mem_cons, List.not_mem_nil, or_false,
      Option.some.injEq, reduceCtorEq] at h1 h2
    rcases h1 with h | h | h <;> rcases h2 with h' | h' | h' <;>
      subst h <;> subst h' <;>
      first | rfl | (exact absurd hnorm (by decide))
  · exact ⟨"Homo sapiens", by decide⟩

end NGSpeciesId
